import Mathlib

/-!
Shallow embedding of `src/bin/part2.rs` (Advent-of-Code day 5 crane puzzle):
labeled stacks of single characters, `move N from A to B` instructions,
parsing of both text formats, the instruction-application transition
function, and the final "tops" summary.

Modelling conventions:
* Rust `Vec<char>` is `List Char`; index 0 is the bottom of a stack and the
  last element is the top, exactly as in the source.
* Rust `usize` arithmetic: the only subtraction the source performs on
  attacker-controlled values is `label - 1`; we model it with an explicit
  wrap modulo `2 ^ 64` (release-mode Rust semantics), so label `0` maps to
  the huge position `2 ^ 64 - 1`, which no collection can contain.
* Fallible Rust code returns `Except`; code that can `panic!` (the
  `unwrap()` calls in `CraneInstructions::from_str` and in the push loop of
  `apply_instruction`) returns `RunResult`, which has an explicit
  `panicked` outcome distinct from the typed error channel.
-/

/-- Width of `usize` values: `2 ^ 64`. -/
def USIZE_MOD : Nat := 2 ^ 64

/-- Rust release-mode `n - 1` on `usize`: wraps modulo `2 ^ 64`. -/
def usize_sub_one (n : Nat) : Nat := (n + (USIZE_MOD - 1)) % USIZE_MOD

/-- Outcome of running Rust code that may return `Ok`, return `Err`, or
panic (via `unwrap` on `None` / `Err`). -/
inductive RunResult (ε α : Type) where
  | ok (a : α)
  | err (e : ε)
  | panicked (msg : String)
deriving DecidableEq, Repr

/-- `enum ParseError` from the source. -/
inductive ParseError where
  | InvalidId (msg : String)
  | InvalidChar (msg : String)
  | InvalidInstruction (msg : String)
deriving DecidableEq, Repr

/-- `enum CraneError` from the source. -/
inductive CraneError where
  | EmptyStack (msg : String)
  | IndexError (msg : String)
deriving DecidableEq, Repr

/-- `struct Stack { stack: Vec<char> }`. -/
structure Stack where
  stack : List Char
deriving DecidableEq, Repr

/-- `struct Stacks { stacks: Vec<Stack> }`. -/
structure Stacks where
  «stacks» : List Stack
deriving DecidableEq, Repr

/-- `struct CraneInstruction { num_to_move, from_stack, to_stack : usize }`. -/
structure CraneInstruction where
  num_to_move : Nat
  from_stack : Nat
  to_stack : Nat
deriving DecidableEq, Repr

/-- `struct CraneInstructions { instructions: Vec<CraneInstruction> }`. -/
structure CraneInstructions where
  instructions : List CraneInstruction
deriving DecidableEq, Repr

/-- `Stack::len`. -/
def Stack.len (s : Stack) : Nat := s.stack.length

/-- `Stack::is_empty`: `self.stack.len() == 0`. -/
def Stack.is_empty (s : Stack) : Bool := s.stack.length == 0

/-- `Stack::pop`: removes and returns the top character; on an empty stack
returns the blank sentinel `' '` and leaves the stack unchanged. -/
def Stack.pop (s : Stack) : Char × Stack :=
  (s.stack.getLast?.getD ' ', ⟨s.stack.dropLast⟩)

/-- `Stack::push`: appends a character at the top. -/
def Stack.push (s : Stack) (v : Char) : Stack := ⟨s.stack ++ [v]⟩

/-- `Stack::get_last`: `*self.stack.last().unwrap_or(&' ')`. -/
def Stack.get_last (s : Stack) : Char := s.stack.getLast?.getD ' '

/-- `char::is_ascii_whitespace`: space, tab, newline, form feed, carriage
return. -/
def isAsciiWhitespace (c : Char) : Bool :=
  c = ' ' || c = '\t' || c = '\n' || c = '\x0c' || c = '\r'

/-- Split a character list at every separator, keeping empty chunks
(the helper under `split_ascii_whitespace` and `rustLines`). -/
def splitOnPred (p : Char → Bool) : List Char → List (List Char)
  | [] => [[]]
  | c :: rest =>
    if p c then [] :: splitOnPred p rest
    else
      match splitOnPred p rest with
      | [] => [[c]]
      | t :: ts => (c :: t) :: ts

/-- `str::split_ascii_whitespace`: split on runs of ASCII whitespace,
discarding empty substrings. -/
def split_ascii_whitespace (s : String) : List String :=
  ((splitOnPred isAsciiWhitespace s.toList).filter (fun t => !t.isEmpty)).map
    (fun t => String.mk t)

/-- `str::lines`: split at `\n`, the final line ending optional, a trailing
`\r` stripped from each line. -/
def rustLines (s : String) : List String :=
  let parts := splitOnPred (fun c => c = '\n') s.toList
  let parts := if parts.getLast? = some [] then parts.dropLast else parts
  parts.map (fun l => String.mk (if l.getLast? = some '\r' then l.dropLast else l))

/-- `str::parse::<usize>`: optional leading `+`, one or more ASCII digits,
value below `2 ^ 64`. -/
def parse_usize (s : String) : Option Nat :=
  let cs := match s.toList with
    | '+' :: rest => rest
    | l => l
  if cs.isEmpty then none
  else if cs.all Char.isDigit then
    let v := cs.foldl (fun acc c => acc * 10 + (c.toNat - 48)) 0
    if v < USIZE_MOD then some v else none
  else none

/-- `str::parse::<char>`: succeeds exactly on one-character strings. -/
def parse_char (s : String) : Option Char :=
  match s.toList with
  | [c] => some c
  | _ => none

/-- The first loop of `Stacks::apply_instruction`:
`for _ in 0..move_num { tmp_stack.push(active_stack.pop()); }`.
Returns the temporary vector and the remaining source stack. -/
def pop_loop : Nat → List Char → Stack → List Char × Stack
  | 0, tmp, st => (tmp, st)
  | n + 1, tmp, st => pop_loop n (tmp ++ [(st.pop).1]) (st.pop).2

/-- The second loop of `Stacks::apply_instruction`:
`for _ in 0..move_num { active_stack.push(tmp_stack.pop().unwrap()); }`.
`none` models the `unwrap` panicking on an empty temporary vector. -/
def push_loop : Nat → List Char → Stack → Option (List Char × Stack)
  | 0, tmp, st => some (tmp, st)
  | n + 1, tmp, st =>
    match tmp.getLast? with
    | none => none
    | some c => push_loop n tmp.dropLast (st.push c)

/-- `Stacks::apply_instruction`: look up the source stack (else
`IndexError`), reject counts larger than its length (`EmptyStack`), pop
the moved items into a temporary vector, look up the destination stack in
the updated collection (else `IndexError`), and push the temporary vector
back one item at a time. Diagnostic message texts are abbreviated. -/
def Stacks.apply_instruction (self : Stacks) (instruction : CraneInstruction) :
    RunResult CraneError Stacks :=
  let start_index := usize_sub_one instruction.from_stack
  let end_index := usize_sub_one instruction.to_stack
  let move_num := instruction.num_to_move
  match self.stacks[start_index]? with
  | none => .err (.IndexError ("Could not find a stack at index " ++ toString start_index ++ "."))
  | some active_stack =>
    if move_num > active_stack.len then
      .err (.EmptyStack ("Cannot take " ++ toString move_num ++ " items from stack " ++
        toString instruction.from_stack ++ ", since it only has " ++
        toString active_stack.len ++ " items."))
    else
      let popped := pop_loop move_num [] active_stack
      let stacks1 := self.stacks.set start_index popped.2
      match stacks1[end_index]? with
      | none => .err (.IndexError ("Could not find stack at index " ++ toString end_index ++ "."))
      | some end_stack =>
        match push_loop move_num popped.1 end_stack with
        | none => .panicked "called Option.unwrap on a None value"
        | some result => .ok ⟨stacks1.set end_index result.2⟩

/-- The emptiness-checking loop at the start of `Stacks::tops_string`. -/
def checkEmptyLoop : List Stack → Option CraneError
  | [] => none
  | stack :: rest =>
    if stack.is_empty then some (.EmptyStack "Found empty stack.")
    else checkEmptyLoop rest

/-- `Stacks::tops_string`: error on any empty stack, otherwise the
concatenation of every stack's top character in collection order. -/
def Stacks.tops_string (self : Stacks) : Except CraneError String :=
  match checkEmptyLoop self.stacks with
  | some e => .error e
  | none => .ok (String.mk (self.stacks.map Stack.get_last))

/-- The enumerated loop body of `Stack::from_str` for indices `i ≥ 1`:
each token must parse as a single character. -/
def stack_items_loop : List String → Except ParseError (List Char)
  | [] => .ok []
  | v :: rest =>
    match parse_char v with
    | none => .error (.InvalidChar ("Invalid character for stack element: " ++ v ++
        ", expected single character [A-Z]."))
    | some c =>
      match stack_items_loop rest with
      | .error e => .error e
      | .ok cs => .ok (c :: cs)

/-- `Stack::from_str`: the first whitespace token is the (unused) stack id,
the remaining tokens are the stack contents bottom-to-top. -/
def Stack.from_str (s : String) : Except ParseError Stack :=
  match split_ascii_whitespace s with
  | [] => .ok ⟨[]⟩
  | v :: rest =>
    match parse_usize v with
    | none => .error (.InvalidId ("Invalid character for stack id: " ++ v ++
        ", expected single digit [0-9]"))
    | some _stack_id =>
      match stack_items_loop rest with
      | .error e => .error e
      | .ok items => .ok ⟨items⟩

/-- The per-line loop of `Stacks::from_str`. -/
def stacks_loop : List String → Except ParseError (List Stack)
  | [] => .ok []
  | line :: rest =>
    match Stack.from_str line with
    | .error e => .error e
    | .ok st =>
      match stacks_loop rest with
      | .error e => .error e
      | .ok sts => .ok (st :: sts)

/-- `Stacks::from_str`: one stack per line, in line order. -/
def Stacks.from_str (s : String) : Except ParseError Stacks :=
  match stacks_loop (rustLines s) with
  | .error e => .error e
  | .ok sts => .ok ⟨sts⟩

/-- The enumerated loop of `CraneInstruction::from_str`: parse the tokens at
odd positions as `usize`, failing with `InvalidInstruction`. -/
def collect_odd : Nat → List String → Except ParseError (List Nat)
  | _, [] => .ok []
  | i, v :: rest =>
    if i % 2 = 1 then
      match parse_usize v with
      | none => .error (.InvalidInstruction ("Error parsing symbol " ++ v ++
          ", expected single digit."))
      | some n =>
        match collect_odd (i + 1) rest with
        | .error e => .error e
        | .ok ns => .ok (n :: ns)
    else collect_odd (i + 1) rest

/-- `CraneInstruction::from_str` (the single-line parser): exactly six
whitespace tokens, odd positions numeric, else `InvalidInstruction`. The
final `unwrap`s on `vals` are modelled by the `panicked` fallback. -/
def CraneInstruction.from_str (s : String) : RunResult ParseError CraneInstruction :=
  let slices := split_ascii_whitespace s
  if slices.length ≠ 6 then
    .err (.InvalidInstruction "Invalid crane instruction length. Expected form: move a from b to c.")
  else
    match collect_odd 0 slices with
    | .error e => .err e
    | .ok vals =>
      match vals[0]?, vals[1]?, vals[2]? with
      | some a, some b, some c => .ok ⟨a, b, c⟩
      | _, _, _ => .panicked "called Option.unwrap on a None value"

/-- The per-line loop of `CraneInstructions::from_str`. Note that the three
numeric tokens are parsed into `Result`s and then `unwrap`ped: a parse
failure is a panic, not a returned error. -/
def instructions_loop : List String → RunResult ParseError (List CraneInstruction)
  | [] => .ok []
  | line :: rest =>
    let line_parts := split_ascii_whitespace line
    if line_parts.length ≠ 6 then
      .err (.InvalidInstruction "Invalid instruction format.")
    else
      match line_parts[1]? with
      | none => .err (.InvalidInstruction "Invalid move count.")
      | some t1 =>
        match line_parts[3]? with
        | none => .err (.InvalidInstruction "Invalid source stack.")
        | some t3 =>
          match line_parts[5]? with
          | none => .err (.InvalidInstruction "Invalid target stack.")
          | some t5 =>
            match parse_usize t1, parse_usize t3, parse_usize t5 with
            | some a, some b, some c =>
              match instructions_loop rest with
              | .ok l => .ok (⟨a, b, c⟩ :: l)
              | .err e => .err e
              | .panicked m => .panicked m
            | _, _, _ => .panicked "called Result.unwrap on an Err value"

/-- `CraneInstructions::from_str` (the batch parser actually used by
`main`): parses each line inline — it does not call
`CraneInstruction::from_str`. -/
def CraneInstructions.from_str (s : String) : RunResult ParseError CraneInstructions :=
  match instructions_loop (rustLines s) with
  | .ok l => .ok ⟨l⟩
  | .err e => .err e
  | .panicked m => .panicked m

/-- Is the outcome the `EmptyStack` error kind? -/
def RunResult.isEmptyStackErr : RunResult CraneError Stacks → Bool
  | .err (.EmptyStack _) => true
  | _ => false

/-- Is the outcome the `IndexError` error kind? -/
def RunResult.isIndexErr : RunResult CraneError Stacks → Bool
  | .err (.IndexError _) => true
  | _ => false

/-- Is the outcome a panic? -/
def RunResult.isPanic {ε α : Type} : RunResult ε α → Bool
  | .panicked _ => true
  | _ => false

/-- The multiset of characters held across all stacks of a collection. -/
def Stacks.charsOf (s : Stacks) : Multiset Char :=
  (s.stacks.map (fun st => (st.stack : Multiset Char))).sum

/-! ### Helper lemmas about the embedded operations -/

lemma usize_sub_one_eq {n : Nat} (h1 : 1 ≤ n) (h2 : n ≤ USIZE_MOD) :
    usize_sub_one n = n - 1 := by
  have hM : USIZE_MOD = 18446744073709551616 := by norm_num [USIZE_MOD]
  simp only [usize_sub_one, hM] at *
  omega

lemma set_get_self {α : Type} : ∀ (l : List α) (n : Nat) (a : α),
    l[n]? = some a → l.set n a = l := by
  intro l
  induction l with
  | nil => intro n a h; simp at h
  | cons x xs ih =>
    intro n a h
    cases n with
    | zero => simp at h; simp [h]
    | succ m => simp at h ⊢; exact ih m a h

lemma pop_loop_spec : ∀ (k : Nat) (acc l : List Char), k ≤ l.length →
    pop_loop k acc ⟨l⟩ =
      (acc ++ (l.drop (l.length - k)).reverse, ⟨l.take (l.length - k)⟩) := by
  intro k
  induction k with
  | zero => intro acc l _; simp [pop_loop]
  | succ n ih =>
    intro acc l h
    match hrev : l.reverse with
    | [] =>
      rw [List.reverse_eq_nil_iff] at hrev
      subst hrev; simp at h
    | c :: r' =>
      have hl : l = r'.reverse ++ [c] := by
        have := congrArg List.reverse hrev
        simpa using this
      subst hl
      have hlen : (r'.reverse ++ [c]).length = r'.length + 1 := by simp
      have hn : n ≤ r'.length := by
        rw [hlen] at h; omega
      have hm : r'.reverse.length + 1 - (n + 1) = r'.length - n := by simp
      rw [pop_loop]
      have hpop : Stack.pop ⟨r'.reverse ++ [c]⟩ = (c, ⟨r'.reverse⟩) := by
        simp [Stack.pop]
      rw [hpop]
      simp only
      rw [ih (acc ++ [c]) r'.reverse (by simpa using hn)]
      rw [hlen]
      have h1 : r'.length + 1 - (n + 1) = r'.length - n := by omega
      rw [h1, List.drop_append_of_le_length (by simp),
        List.take_append_of_le_length (by simp)]
      simp [List.length_reverse]

lemma push_loop_all_aux : ∀ (n : Nat) (tmp d : List Char), tmp.length = n →
    push_loop n tmp ⟨d⟩ = some ([], ⟨d ++ tmp.reverse⟩) := by
  intro n
  induction n with
  | zero =>
    intro tmp d hn
    have : tmp = [] := List.length_eq_zero.mp hn
    subst this; simp [push_loop]
  | succ n ih =>
    intro tmp d hn
    match hrev : tmp.reverse with
    | [] =>
      rw [List.reverse_eq_nil_iff] at hrev
      subst hrev; simp at hn
    | c :: r' =>
      have hl : tmp = r'.reverse ++ [c] := by
        have := congrArg List.reverse hrev
        simpa using this
      subst hl
      rw [push_loop]
      have hlast : (r'.reverse ++ [c]).getLast? = some c := List.getLast?_concat _
      rw [hlast]
      simp only [List.dropLast_concat, Stack.push]
      have hr : r'.reverse.length = n := by
        simp at hn ⊢; omega
      rw [ih r'.reverse (d ++ [c]) hr]
      simp

lemma push_loop_all (tmp d : List Char) :
    push_loop tmp.length tmp ⟨d⟩ = some ([], ⟨d ++ tmp.reverse⟩) :=
  push_loop_all_aux tmp.length tmp d rfl

lemma pop_loop_spec' (k : Nat) (acc : List Char) (st : Stack) (h : k ≤ st.stack.length) :
    pop_loop k acc st =
      (acc ++ (st.stack.drop (st.stack.length - k)).reverse,
        ⟨st.stack.take (st.stack.length - k)⟩) :=
  pop_loop_spec k acc st.stack h

lemma push_loop_all' (tmp : List Char) (st : Stack) :
    push_loop tmp.length tmp st = some ([], ⟨st.stack ++ tmp.reverse⟩) :=
  push_loop_all tmp st.stack

lemma push_loop_len (k : Nat) (tmp : List Char) (st : Stack) (h : tmp.length = k) :
    push_loop k tmp st = some ([], ⟨st.stack ++ tmp.reverse⟩) := by
  subst h; exact push_loop_all' tmp st

lemma apply_instruction_ok (s : Stacks) (i : CraneInstruction) (src dest : Stack)
    (hp : s.stacks[usize_sub_one i.from_stack]? = some src)
    (hk : i.num_to_move ≤ src.len)
    (hq : (s.stacks.set (usize_sub_one i.from_stack)
        ⟨src.stack.take (src.stack.length - i.num_to_move)⟩)[usize_sub_one i.to_stack]?
        = some dest) :
    s.apply_instruction i = .ok ⟨(s.stacks.set (usize_sub_one i.from_stack)
        ⟨src.stack.take (src.stack.length - i.num_to_move)⟩).set (usize_sub_one i.to_stack)
        ⟨dest.stack ++ src.stack.drop (src.stack.length - i.num_to_move)⟩⟩ := by
  have hnlt : ¬ (src.len < i.num_to_move) := Nat.not_lt.mpr hk
  have hk' : i.num_to_move ≤ src.stack.length := hk
  have htmp : ((src.stack.drop (src.stack.length - i.num_to_move)).reverse).length
      = i.num_to_move := by
    simp; omega
  simp only [Stacks.apply_instruction, hp, gt_iff_lt, hnlt, if_false,
    pop_loop_spec' i.num_to_move [] src hk', List.nil_append, hq]
  rw [push_loop_len i.num_to_move _ _ htmp]
  simp

lemma apply_instruction_err_source (s : Stacks) (i : CraneInstruction)
    (hp : s.stacks[usize_sub_one i.from_stack]? = none) :
    s.apply_instruction i = .err (.IndexError
      ("Could not find a stack at index " ++ toString (usize_sub_one i.from_stack) ++ ".")) := by
  simp only [Stacks.apply_instruction, hp]

lemma apply_instruction_err_count (s : Stacks) (i : CraneInstruction) (src : Stack)
    (hp : s.stacks[usize_sub_one i.from_stack]? = some src)
    (hk : src.len < i.num_to_move) :
    s.apply_instruction i = .err (.EmptyStack
      ("Cannot take " ++ toString i.num_to_move ++ " items from stack " ++
        toString i.from_stack ++ ", since it only has " ++
        toString src.len ++ " items.")) := by
  simp only [Stacks.apply_instruction, hp, gt_iff_lt, hk, if_true]

lemma apply_instruction_err_dest (s : Stacks) (i : CraneInstruction) (src : Stack)
    (hp : s.stacks[usize_sub_one i.from_stack]? = some src)
    (hk : i.num_to_move ≤ src.len)
    (hq : (s.stacks.set (usize_sub_one i.from_stack)
        ⟨src.stack.take (src.stack.length - i.num_to_move)⟩)[usize_sub_one i.to_stack]?
        = none) :
    s.apply_instruction i = .err (.IndexError
      ("Could not find stack at index " ++ toString (usize_sub_one i.to_stack) ++ ".")) := by
  have hnlt : ¬ (src.len < i.num_to_move) := Nat.not_lt.mpr hk
  have hk' : i.num_to_move ≤ src.stack.length := hk
  simp only [Stacks.apply_instruction, hp, gt_iff_lt, hnlt, if_false,
    pop_loop_spec' i.num_to_move [] src hk', List.nil_append, hq]

lemma apply_instruction_ok_inv (s : Stacks) (i : CraneInstruction) (s' : Stacks)
    (h : s.apply_instruction i = .ok s') :
    ∃ src dest,
      s.stacks[usize_sub_one i.from_stack]? = some src ∧
      i.num_to_move ≤ src.len ∧
      (s.stacks.set (usize_sub_one i.from_stack)
        ⟨src.stack.take (src.stack.length - i.num_to_move)⟩)[usize_sub_one i.to_stack]?
        = some dest ∧
      s' = ⟨(s.stacks.set (usize_sub_one i.from_stack)
        ⟨src.stack.take (src.stack.length - i.num_to_move)⟩).set (usize_sub_one i.to_stack)
        ⟨dest.stack ++ src.stack.drop (src.stack.length - i.num_to_move)⟩⟩ := by
  cases hp : s.stacks[usize_sub_one i.from_stack]? with
  | none =>
    rw [apply_instruction_err_source s i hp] at h
    simp at h
  | some src =>
    by_cases hk : i.num_to_move ≤ src.len
    · cases hq : (s.stacks.set (usize_sub_one i.from_stack)
          ⟨src.stack.take (src.stack.length - i.num_to_move)⟩)[usize_sub_one i.to_stack]? with
      | none =>
        rw [apply_instruction_err_dest s i src hp hk hq] at h
        simp at h
      | some dest =>
        rw [apply_instruction_ok s i src dest hp hk hq] at h
        simp only [RunResult.ok.injEq] at h
        exact ⟨src, dest, by simp [hp], hk, by simp [hq], h.symm⟩
    · rw [apply_instruction_err_count s i src hp (Nat.not_le.mp hk)] at h
      simp at h

/-- Character multiset of a list of stacks. -/
def listChars (l : List Stack) : Multiset Char :=
  (l.map (fun st => (st.stack : Multiset Char))).sum

lemma listChars_cons (x : Stack) (xs : List Stack) :
    listChars (x :: xs) = (x.stack : Multiset Char) + listChars xs := by
  simp [listChars]

lemma listChars_set : ∀ (l : List Stack) (n : Nat) (st st' : Stack),
    l[n]? = some st →
    listChars (l.set n st') + (st.stack : Multiset Char)
      = listChars l + (st'.stack : Multiset Char) := by
  intro l
  induction l with
  | nil => intro n st st' h; simp at h
  | cons x xs ih =>
    intro n st st' h
    cases n with
    | zero =>
      simp at h
      subst h
      rw [List.set]
      rw [listChars_cons, listChars_cons]
      abel
    | succ m =>
      simp at h
      rw [List.set]
      rw [listChars_cons, listChars_cons, add_assoc, add_assoc, ih m st st' h]

lemma checkEmptyLoop_eq_none : ∀ (l : List Stack),
    (∀ st ∈ l, st.is_empty = false) → checkEmptyLoop l = none := by
  intro l
  induction l with
  | nil => intro _; rfl
  | cons x xs ih =>
    intro h
    have hx : x.is_empty = false := h x (List.mem_cons_self x xs)
    rw [checkEmptyLoop, hx]
    simp only [Bool.false_eq_true, if_false]
    exact ih (fun st hst => h st (List.mem_cons_of_mem x hst))

lemma checkEmptyLoop_eq_some : ∀ (l : List Stack),
    (∃ st ∈ l, st.is_empty = true) →
    checkEmptyLoop l = some (.EmptyStack "Found empty stack.") := by
  intro l
  induction l with
  | nil => intro h; simp at h
  | cons x xs ih =>
    intro h
    by_cases hx : x.is_empty = true
    · rw [checkEmptyLoop, hx]; simp
    · rw [checkEmptyLoop]
      simp only [hx, if_false]
      obtain ⟨st, hmem, hst⟩ := h
      rcases List.mem_cons.mp hmem with heq | hmem'
      · subst heq; exact absurd hst hx
      · exact ih ⟨st, hmem', hst⟩

lemma getLast?_append_right {l l' : List Char} (h : l' ≠ []) :
    (l ++ l').getLast? = l'.getLast? := by
  rw [List.getLast?_append]
  cases hx : l'.getLast? with
  | none => exact absurd (List.getLast?_eq_none_iff.mp hx) h
  | some c => rfl

/-! ### Claim theorems -/

/-- Claim C3: when `apply_instruction` succeeds, the collected items are
appended onto the destination stack with the item originally deepest among
the moved items pushed first and the item originally on top of the source
pushed last, which becomes the new top of the destination: the destination
ends in the source's top `num_to_move` items in their original order, and
its new top character equals the source's old top character. -/
theorem C3_moved_block_appended_in_order (s : Stacks) (i : CraneInstruction)
    (s' : Stacks) (h : s.apply_instruction i = .ok s') :
    ∃ src rest,
      s.stacks[usize_sub_one i.from_stack]? = some src ∧
      s'.stacks[usize_sub_one i.to_stack]?
        = some ⟨rest ++ src.stack.drop (src.stack.length - i.num_to_move)⟩ ∧
      (1 ≤ i.num_to_move →
        Stack.get_last ⟨rest ++ src.stack.drop (src.stack.length - i.num_to_move)⟩
          = src.get_last) := by
  obtain ⟨src, dest, hp, hk, hq, hs'⟩ := apply_instruction_ok_inv s i s' h
  refine ⟨src, dest.stack, hp, ?_, ?_⟩
  · have hqlt : usize_sub_one i.to_stack
        < ((s.stacks.set (usize_sub_one i.from_stack)
          ⟨src.stack.take (src.stack.length - i.num_to_move)⟩)).length := by
      rcases List.getElem?_eq_some_iff.mp hq with ⟨hlt, _⟩
      exact hlt
    rw [hs']
    exact List.getElem?_set_self hqlt
  · intro hone
    have hk' : i.num_to_move ≤ src.stack.length := hk
    have hmv : src.stack.drop (src.stack.length - i.num_to_move) ≠ [] := by
      intro hnil
      have := List.drop_eq_nil_iff.mp hnil
      omega
    have h1 : (dest.stack ++ src.stack.drop (src.stack.length - i.num_to_move)).getLast?
        = (src.stack.drop (src.stack.length - i.num_to_move)).getLast? :=
      getLast?_append_right hmv
    have h2 : src.stack.getLast?
        = (src.stack.drop (src.stack.length - i.num_to_move)).getLast? := by
      conv =>
        lhs
        rw [← List.take_append_drop (src.stack.length - i.num_to_move) src.stack]
      exact getLast?_append_right hmv
    simp only [Stack.get_last, h1, h2]

/-- Claim C5: if the source position is valid but the count exceeds the
source stack's length, `apply_instruction` fails with the `EmptyStack`
error kind (the check happens before any item is removed; on error the
state is consumed and no mutated collection is returned). -/
theorem C5_underflow_rejected (s : Stacks) (i : CraneInstruction) (src : Stack)
    (hp : s.stacks[usize_sub_one i.from_stack]? = some src)
    (hk : src.len < i.num_to_move) :
    ∃ m, s.apply_instruction i = .err (.EmptyStack m) :=
  ⟨_, apply_instruction_err_count s i src hp hk⟩

/-- Claim C7: an instruction with count `0` whose source and destination
positions are both valid succeeds and returns the collection unchanged,
even when the source stack is empty. -/
theorem C7_zero_count_noop (s : Stacks) (i : CraneInstruction)
    (h0 : i.num_to_move = 0)
    (hsrc : usize_sub_one i.from_stack < s.stacks.length)
    (hdst : usize_sub_one i.to_stack < s.stacks.length) :
    s.apply_instruction i = .ok s := by
  obtain ⟨ls⟩ := s
  simp only at hsrc hdst
  obtain ⟨src, hp⟩ : ∃ t, ls[usize_sub_one i.from_stack]? = some t := by
    cases h : ls[usize_sub_one i.from_stack]? with
    | none => rw [List.getElem?_eq_none_iff] at h; omega
    | some t => exact ⟨t, rfl⟩
  obtain ⟨dst, hd⟩ : ∃ t, ls[usize_sub_one i.to_stack]? = some t := by
    cases h : ls[usize_sub_one i.to_stack]? with
    | none => rw [List.getElem?_eq_none_iff] at h; omega
    | some t => exact ⟨t, rfl⟩
  have hA : (⟨src.stack.take (src.stack.length - i.num_to_move)⟩ : Stack) = src := by
    rw [h0, Nat.sub_zero, List.take_length]
  have hset : ls.set (usize_sub_one i.from_stack) src = ls := set_get_self _ _ _ hp
  have hq2 : (ls.set (usize_sub_one i.from_stack)
      (⟨src.stack.take (src.stack.length - i.num_to_move)⟩ : Stack))[usize_sub_one i.to_stack]?
      = some dst := by
    rw [hA, hset]
    exact hd
  rw [apply_instruction_ok ⟨ls⟩ i src dst hp (by rw [h0]; exact Nat.zero_le _) hq2]
  rw [hA, hset]
  have hB : (⟨dst.stack ++ src.stack.drop (src.stack.length - i.num_to_move)⟩ : Stack)
      = dst := by
    rw [h0, Nat.sub_zero, List.drop_length, List.append_nil]
  rw [hB, set_get_self _ _ _ hd]

/-- Claim C9: moving any feasible count from a stack to itself succeeds and
leaves every stack, including the moved one, unchanged (the temporary
vector reverses the block twice). -/
theorem C9_self_move_identity (s : Stacks) (j k : Nat) (src : Stack)
    (hj1 : 1 ≤ j) (hj2 : j ≤ USIZE_MOD)
    (hp : s.stacks[j - 1]? = some src)
    (hk : k ≤ src.len) :
    s.apply_instruction ⟨k, j, j⟩ = .ok s := by
  obtain ⟨ls⟩ := s
  simp only at hp
  have hu : usize_sub_one j = j - 1 := usize_sub_one_eq hj1 hj2
  have hlt : j - 1 < ls.length := by
    rcases List.getElem?_eq_some_iff.mp hp with ⟨h, _⟩
    exact h
  have hp' : ls[usize_sub_one ((⟨k, j, j⟩ : CraneInstruction).from_stack)]? = some src := by
    show ls[usize_sub_one j]? = some src
    rw [hu]
    exact hp
  have hq2 : (ls.set (usize_sub_one ((⟨k, j, j⟩ : CraneInstruction).from_stack))
      (⟨src.stack.take (src.stack.length - k)⟩ : Stack))[usize_sub_one j]?
      = some (⟨src.stack.take (src.stack.length - k)⟩ : Stack) := by
    show (ls.set (usize_sub_one j) _)[usize_sub_one j]? = _
    rw [hu]
    exact List.getElem?_set_self (by simpa using hlt)
  rw [apply_instruction_ok ⟨ls⟩ ⟨k, j, j⟩ src _ hp' hk hq2]
  dsimp only
  rw [hu, List.set_set, List.take_append_drop]
  have hEta : (⟨src.stack⟩ : Stack) = src := rfl
  rw [hEta, set_get_self _ _ _ hp]

lemma multiset_cancel_aux (X Y Z : Multiset Char) (t r d : Multiset Char)
    (h1 : X + d = Y + (d + r)) (h2 : Y + (t + r) = Z + t) : X = Z := by
  have hA : X = Y + r := by
    refine add_right_cancel (b := d) ?_
    rw [h1]
    abel
  have hB : Y + r = Z := by
    refine add_right_cancel (b := t) ?_
    rw [← h2]
    abel
  rw [hA, hB]

/-- Claim C10: a successful `apply_instruction` preserves the multiset of
characters across all stacks (hence the total item count), and every stack
other than the source and destination positions is unchanged. -/
theorem C10_conservation_and_frame (s : Stacks) (i : CraneInstruction) (s' : Stacks)
    (h : s.apply_instruction i = .ok s') :
    s'.charsOf = s.charsOf ∧
    Multiset.card s'.charsOf = Multiset.card s.charsOf ∧
    (∀ r : Nat, r ≠ usize_sub_one i.from_stack → r ≠ usize_sub_one i.to_stack →
      s'.stacks[r]? = s.stacks[r]?) := by
  obtain ⟨src, dest, hp, hk, hq, hs'⟩ := apply_instruction_ok_inv s i s' h
  subst hs'
  have e1 := listChars_set s.stacks (usize_sub_one i.from_stack) src
    ⟨src.stack.take (src.stack.length - i.num_to_move)⟩ hp
  have e2 := listChars_set
    (s.stacks.set (usize_sub_one i.from_stack)
      ⟨src.stack.take (src.stack.length - i.num_to_move)⟩)
    (usize_sub_one i.to_stack) dest
    ⟨dest.stack ++ src.stack.drop (src.stack.length - i.num_to_move)⟩ hq
  dsimp only at e1 e2
  have h1 : listChars ((s.stacks.set (usize_sub_one i.from_stack)
        ⟨src.stack.take (src.stack.length - i.num_to_move)⟩).set (usize_sub_one i.to_stack)
        ⟨dest.stack ++ src.stack.drop (src.stack.length - i.num_to_move)⟩)
      + (dest.stack : Multiset Char)
      = listChars (s.stacks.set (usize_sub_one i.from_stack)
          ⟨src.stack.take (src.stack.length - i.num_to_move)⟩)
        + ((dest.stack : Multiset Char)
          + (src.stack.drop (src.stack.length - i.num_to_move) : Multiset Char)) := by
    rw [Multiset.coe_add]
    exact e2
  have h2 : listChars (s.stacks.set (usize_sub_one i.from_stack)
        ⟨src.stack.take (src.stack.length - i.num_to_move)⟩)
      + ((src.stack.take (src.stack.length - i.num_to_move) : Multiset Char)
        + (src.stack.drop (src.stack.length - i.num_to_move) : Multiset Char))
      = listChars s.stacks
        + (src.stack.take (src.stack.length - i.num_to_move) : Multiset Char) := by
    rw [Multiset.coe_add, List.take_append_drop]
    exact e1
  have hXZ := multiset_cancel_aux _ _ _ _ _ _ h1 h2
  refine ⟨hXZ, congrArg Multiset.card hXZ, ?_⟩
  intro r hr1 hr2
  show ((s.stacks.set (usize_sub_one i.from_stack)
      ⟨src.stack.take (src.stack.length - i.num_to_move)⟩).set (usize_sub_one i.to_stack)
      ⟨dest.stack ++ src.stack.drop (src.stack.length - i.num_to_move)⟩)[r]? = s.stacks[r]?
  rw [List.getElem?_set_ne (Ne.symm hr2), List.getElem?_set_ne (Ne.symm hr1)]

/-- Claim C6: `tops_string` fails with an `EmptyStack` error when any stack
in the collection is empty, and otherwise returns the concatenation of each
stack's top character in collection order. -/
theorem C6_tops_string_spec (s : Stacks) :
    ((∃ st ∈ s.stacks, st.is_empty = true) →
      s.tops_string = .error (.EmptyStack "Found empty stack.")) ∧
    ((∀ st ∈ s.stacks, st.is_empty = false) →
      s.tops_string = .ok (String.mk (s.stacks.map Stack.get_last))) := by
  constructor
  · intro h
    simp only [Stacks.tops_string, checkEmptyLoop_eq_some s.stacks h]
  · intro h
    simp only [Stacks.tops_string, checkEmptyLoop_eq_none s.stacks h]

/-- Claim C4 (counterexample): with the one-stack collection `[A]` and the
instruction `move 2 from 1 to 5`, the destination position `4` has no
corresponding stack, yet `apply_instruction` returns `EmptyStack` (the
count check fires first), not `IndexError` as the claim requires. -/
theorem C4_counterexample :
    (Stacks.apply_instruction ⟨[⟨['A']⟩]⟩ ⟨2, 1, 5⟩).isIndexErr = false ∧
    (Stacks.apply_instruction ⟨[⟨['A']⟩]⟩ ⟨2, 1, 5⟩).isEmptyStackErr = true ∧
    ([(⟨['A']⟩ : Stack)] : List Stack)[usize_sub_one 5]? = none ∧
    Stack.len ⟨['A']⟩ < 2 := by
  refine ⟨by decide, by decide, by decide, by decide⟩

/-- Claim C4 (amended): a missing source position yields `IndexError`, and
the source check precedes the count check; but the destination position is
only looked up after the count check (and the removal), so when the source
is valid a count exceeding the source length yields `EmptyStack` even if
the destination is also out of range, and a missing destination yields
`IndexError` only when the count check passes. -/
theorem C4_amended_error_precedence (s : Stacks) (i : CraneInstruction) :
    (s.stacks[usize_sub_one i.from_stack]? = none →
      ∃ m, s.apply_instruction i = .err (.IndexError m)) ∧
    (∀ src, s.stacks[usize_sub_one i.from_stack]? = some src →
      src.len < i.num_to_move →
      ∃ m, s.apply_instruction i = .err (.EmptyStack m)) ∧
    (∀ src, s.stacks[usize_sub_one i.from_stack]? = some src →
      i.num_to_move ≤ src.len → s.stacks[usize_sub_one i.to_stack]? = none →
      ∃ m, s.apply_instruction i = .err (.IndexError m)) := by
  refine ⟨?_, ?_, ?_⟩
  · intro h
    exact ⟨_, apply_instruction_err_source s i h⟩
  · intro src hp hk
    exact ⟨_, apply_instruction_err_count s i src hp hk⟩
  · intro src hp hk hq
    have hq' : (s.stacks.set (usize_sub_one i.from_stack)
        ⟨src.stack.take (src.stack.length - i.num_to_move)⟩)[usize_sub_one i.to_stack]?
        = none := by
      rw [List.getElem?_eq_none_iff] at hq ⊢
      simpa using hq
    exact ⟨_, apply_instruction_err_dest s i src hp hk hq'⟩

/-- Claim C1: evaluating `apply_instruction` on the repository test fixture
(`move 2 from 1 to 2` on stacks `[A,B,C]`, `[D,E,F]`, `[G,H,I]`, six empty):
the code yields destination `[D,E,F,B,C]` — the moved block keeps its
original relative order — whereas the claim (and the repository's own
`test_apply_instruction`) expects `[D,E,F,C,B]`. -/
theorem C1_fixture_behavior :
    Stacks.apply_instruction
      ⟨[⟨['A','B','C']⟩, ⟨['D','E','F']⟩, ⟨['G','H','I']⟩,
        ⟨[]⟩, ⟨[]⟩, ⟨[]⟩, ⟨[]⟩, ⟨[]⟩, ⟨[]⟩]⟩ ⟨2, 1, 2⟩
      = .ok ⟨[⟨['A']⟩, ⟨['D','E','F','B','C']⟩, ⟨['G','H','I']⟩,
        ⟨[]⟩, ⟨[]⟩, ⟨[]⟩, ⟨[]⟩, ⟨[]⟩, ⟨[]⟩]⟩ ∧
    (⟨['D','E','F','B','C']⟩ : Stack) ≠ ⟨['D','E','F','C','B']⟩ := by
  refine ⟨by decide, by decide⟩

/-- Claim C2: the batch instruction parser `CraneInstructions::from_str`
(the one `main` uses) does return `InvalidInstruction` on a wrong token
count, but on a six-token line whose numeric position fails to parse it
panics (`unwrap` on an `Err`) instead of returning `InvalidInstruction`;
the unused single-instruction parser `CraneInstruction::from_str` does
return the typed error for the same line. -/
theorem C2_batch_parser_panics :
    CraneInstructions.from_str "move X from 1 to 2"
      = .panicked "called Result.unwrap on an Err value" ∧
    CraneInstructions.from_str "move 1 from 2"
      = .err (.InvalidInstruction "Invalid instruction format.") ∧
    CraneInstruction.from_str "move X from 1 to 2"
      = .err (.InvalidInstruction "Error parsing symbol X, expected single digit.") := by
  refine ⟨by decide, by decide, by decide⟩

/-- Claim C8: parsing the layout text `1 Z N / 2 M C D / 3 P` yields three
stacks in line order with bottom-to-top contents `[Z,N]`, `[M,C,D]`, `[P]`,
lengths `2, 3, 1`, and top elements `N`, `D`, `P`. -/
theorem C8_layout_roundtrip :
    Stacks.from_str "1 Z N\n2 M C D\n3 P"
      = .ok ⟨[⟨['Z','N']⟩, ⟨['M','C','D']⟩, ⟨['P']⟩]⟩ ∧
    ([(⟨['Z','N']⟩ : Stack), ⟨['M','C','D']⟩, ⟨['P']⟩].map Stack.len = [2, 3, 1]) ∧
    ([(⟨['Z','N']⟩ : Stack), ⟨['M','C','D']⟩, ⟨['P']⟩].map Stack.get_last
      = ['N', 'D', 'P']) :=
  ⟨rfl, rfl, rfl⟩

/-! ### Witnesses -/

/-- Witness for C3 at a concrete input: `move 2 from 1 to 2` on `[A,B,C]`,
`[D,E]` puts the block `B, C` on the destination in original order with `C`
on top. -/
theorem C3_moved_block_appended_in_order_witness :
    Stacks.apply_instruction ⟨[⟨['A','B','C']⟩, ⟨['D','E']⟩]⟩ ⟨2, 1, 2⟩
      = .ok ⟨[⟨['A']⟩, ⟨['D','E','B','C']⟩]⟩ ∧
    (∃ src rest,
      ([(⟨['A','B','C']⟩ : Stack), ⟨['D','E']⟩] : List Stack)[usize_sub_one 1]? = some src ∧
      ([(⟨['A']⟩ : Stack), ⟨['D','E','B','C']⟩] : List Stack)[usize_sub_one 2]?
        = some ⟨rest ++ src.stack.drop (src.stack.length - 2)⟩ ∧
      (1 ≤ 2 →
        Stack.get_last ⟨rest ++ src.stack.drop (src.stack.length - 2)⟩
          = src.get_last)) :=
  ⟨by decide,
    C3_moved_block_appended_in_order ⟨[⟨['A','B','C']⟩, ⟨['D','E']⟩]⟩ ⟨2, 1, 2⟩
      ⟨[⟨['A']⟩, ⟨['D','E','B','C']⟩]⟩ (by decide)⟩

/-- Witness for C5 at a concrete input: `move 2 from 1 to 1` on the single
stack `[A]` fails with the `EmptyStack` kind. -/
theorem C5_underflow_rejected_witness :
    ([(⟨['A']⟩ : Stack)] : List Stack)[usize_sub_one 1]? = some ⟨['A']⟩ ∧
    Stack.len ⟨['A']⟩ < 2 ∧
    (∃ m, Stacks.apply_instruction ⟨[⟨['A']⟩]⟩ ⟨2, 1, 1⟩ = .err (.EmptyStack m)) :=
  ⟨by decide, by decide,
    C5_underflow_rejected ⟨[⟨['A']⟩]⟩ ⟨2, 1, 1⟩ ⟨['A']⟩ (by decide) (by decide)⟩

/-- Witness for C7 at a concrete input: `move 0 from 1 to 1` on one empty
stack succeeds and is a no-op. -/
theorem C7_zero_count_noop_witness :
    usize_sub_one 1 < 1 ∧
    Stacks.apply_instruction ⟨[⟨[]⟩]⟩ ⟨0, 1, 1⟩ = .ok ⟨[⟨[]⟩]⟩ :=
  ⟨by decide, C7_zero_count_noop ⟨[⟨[]⟩]⟩ ⟨0, 1, 1⟩ rfl (by decide) (by decide)⟩

/-- Witness for C9 at a concrete input: `move 2 from 1 to 1` on the stack
`[A,B]` succeeds and leaves the state unchanged. -/
theorem C9_self_move_identity_witness :
    ([(⟨['A','B']⟩ : Stack)] : List Stack)[1 - 1]? = some ⟨['A','B']⟩ ∧
    2 ≤ Stack.len ⟨['A','B']⟩ ∧
    Stacks.apply_instruction ⟨[⟨['A','B']⟩]⟩ ⟨2, 1, 1⟩ = .ok ⟨[⟨['A','B']⟩]⟩ :=
  ⟨by decide, by decide,
    C9_self_move_identity ⟨[⟨['A','B']⟩]⟩ 1 2 ⟨['A','B']⟩ (by decide) (by decide)
      (by decide) (by decide)⟩

/-- Witness for C10 at a concrete input: `move 1 from 1 to 2` on `[A]`,
`[B]` preserves the character multiset. -/
theorem C10_conservation_and_frame_witness :
    Stacks.apply_instruction ⟨[⟨['A']⟩, ⟨['B']⟩]⟩ ⟨1, 1, 2⟩
      = .ok ⟨[⟨[]⟩, ⟨['B','A']⟩]⟩ ∧
    (Stacks.mk [⟨[]⟩, ⟨['B','A']⟩]).charsOf = (Stacks.mk [⟨['A']⟩, ⟨['B']⟩]).charsOf :=
  ⟨by decide,
    (C10_conservation_and_frame ⟨[⟨['A']⟩, ⟨['B']⟩]⟩ ⟨1, 1, 2⟩
      ⟨[⟨[]⟩, ⟨['B','A']⟩]⟩ (by decide)).1⟩

/-- Witness for C6 at concrete inputs: a collection with an empty stack
errors, a collection of non-empty stacks yields the tops string. -/
theorem C6_tops_string_spec_witness :
    Stacks.tops_string ⟨[⟨['A']⟩, ⟨[]⟩]⟩ = .error (.EmptyStack "Found empty stack.") ∧
    Stacks.tops_string ⟨[⟨['A']⟩, ⟨['B','C']⟩]⟩ = .ok "AC" := by
  constructor
  · exact (C6_tops_string_spec ⟨[⟨['A']⟩, ⟨[]⟩]⟩).1 ⟨⟨[]⟩, by decide, by decide⟩
  · have h2 := (C6_tops_string_spec ⟨[⟨['A']⟩, ⟨['B','C']⟩]⟩).2 (by decide)
    rw [h2]
    rfl

/-- Witness for the amended C4 at concrete inputs: missing source gives
`IndexError`; valid source with excessive count gives `EmptyStack` even
though the destination is also missing; valid source and feasible count
with missing destination gives `IndexError`. -/
theorem C4_amended_error_precedence_witness :
    (∃ m, Stacks.apply_instruction ⟨[]⟩ ⟨0, 1, 1⟩ = .err (.IndexError m)) ∧
    (∃ m, Stacks.apply_instruction ⟨[⟨['A']⟩]⟩ ⟨2, 1, 5⟩ = .err (.EmptyStack m)) ∧
    (∃ m, Stacks.apply_instruction ⟨[⟨['A']⟩]⟩ ⟨1, 1, 5⟩ = .err (.IndexError m)) :=
  ⟨(C4_amended_error_precedence ⟨[]⟩ ⟨0, 1, 1⟩).1 (by decide),
    (C4_amended_error_precedence ⟨[⟨['A']⟩]⟩ ⟨2, 1, 5⟩).2.1 ⟨['A']⟩ (by decide) (by decide),
    (C4_amended_error_precedence ⟨[⟨['A']⟩]⟩ ⟨1, 1, 5⟩).2.2 ⟨['A']⟩ (by decide) (by decide)
      (by decide)⟩
